import Mathlib

/-!
Verification development for the lazyaws terminal UI engine.

Shallow embedding of the Go sources:
  * `Vim` namespace  — src/lazyaws/internal/vim/vim.go
  * `App` namespace  — src/lazyaws/main.go (the model fields and Update
    branches the verified properties concern)

Conventions of the embedding:
  * Go strings are modelled as Lean `String` (a sequence of characters);
    byte-level UTF-8 slicing is modelled at character granularity, and
    `len(msg.String()) == 1` is modelled with `String.utf8ByteSize` so that
    only one-byte keys append to buffers, as in Go.
  * Go `int` is modelled as `Int`; Go `/` and `%` truncate toward zero, so
    they are modelled with `Int.tdiv` / `Int.tmod`.
  * Go maps used as sets (`map[string]bool`) are modelled as duplicate-free
    lists of keys; nil slices and empty slices are both modelled as `[]`
    (the Go code only ever queries their `len`).
  * Methods that mutate a struct and return a value are modelled as
    functions returning a pair (new state, returned value); an indexing
    operation that could panic is modelled with `Option` (`none` = panic).
-/

namespace Vim

/-- Go strings.HasPrefix on char lists: `p` is a leading segment of `s`. -/
def startsWithL : List Char → List Char → Bool
  | _, [] => true
  | [], _ :: _ => false
  | a :: s, b :: t => a = b && startsWithL s t

/-- Go strings.Contains on char lists: `sub` occurs contiguously in `s`. -/
def containsSubL : List Char → List Char → Bool
  | [], sub => startsWithL [] sub
  | a :: s, sub => startsWithL (a :: s) sub || containsSubL s sub

/-- Go strings.Contains. -/
def stringsContains (s substr : String) : Bool :=
  containsSubL s.toList substr.toList

/-- Go strings.ToLower (ASCII case folding of each character). -/
def stringsToLower (s : String) : String :=
  String.mk (s.toList.map Char.toLower)

/-- Drop the final character of a string (Go `s[:len(s)-1]` on a
character boundary). -/
def strDropLast (s : String) : String :=
  String.mk s.toList.dropLast

/-- vim.Mode -/
inductive Mode where
  | NormalMode
  | SearchMode
  | CommandMode
deriving DecidableEq, Repr

export Mode (NormalMode SearchMode CommandMode)

/-- vim.State.  `searchResults` holds indices of matching items (Go []int,
always populated with nonnegative loop indices, hence `List Nat`);
`currentMatch` is a Go int.  Marks are a map rune→int, modelled as an
association list. -/
structure State where
  mode : Mode
  searchQuery : String
  searchResults : List Nat
  currentMatch : Int
  commandBuffer : String
  lastSearch : String
  markPosition : List (Char × Int)
deriving DecidableEq, Repr

/-- vim.NewState -/
def NewState : State :=
  { mode := NormalMode
    searchQuery := ""
    searchResults := []
    currentMatch := 0
    commandBuffer := ""
    lastSearch := ""
    markPosition := [] }

/-- vim.State.handleSearchMode (returns the new state and the Go bool). -/
def State.handleSearchMode (s : State) (msg : String) : State × Bool :=
  if msg = "enter" then
    ({ s with lastSearch := s.searchQuery, mode := NormalMode }, true)
  else if msg = "esc" then
    ({ s with searchQuery := "", searchResults := [], currentMatch := 0,
              mode := NormalMode }, true)
  else if msg = "backspace" then
    (if s.searchQuery.length > 0 then
       { s with searchQuery := strDropLast s.searchQuery }
     else s, true)
  else
    (if msg.utf8ByteSize = 1 then
       { s with searchQuery := s.searchQuery ++ msg }
     else s, true)

/-- vim.State.handleCommandMode -/
def State.handleCommandMode (s : State) (msg : String) : State × Bool :=
  if msg = "enter" then
    ({ s with mode := NormalMode }, true)
  else if msg = "esc" then
    ({ s with commandBuffer := "", mode := NormalMode }, true)
  else if msg = "backspace" then
    (if s.commandBuffer.length > 0 then
       { s with commandBuffer := strDropLast s.commandBuffer }
     else s, true)
  else
    (if msg.utf8ByteSize = 1 then
       { s with commandBuffer := s.commandBuffer ++ msg }
     else s, true)

/-- vim.State.HandleKey -/
def State.HandleKey (s : State) (msg : String) : State × Bool :=
  match s.mode with
  | SearchMode => s.handleSearchMode msg
  | CommandMode => s.handleCommandMode msg
  | NormalMode => (s, false)

/-- vim.State.EnterSearchMode -/
def State.EnterSearchMode (s : State) : State :=
  { s with mode := SearchMode, searchQuery := "", searchResults := [],
           currentMatch := 0 }

/-- vim.State.EnterCommandMode -/
def State.EnterCommandMode (s : State) : State :=
  { s with mode := CommandMode, commandBuffer := "" }

/-- The `for i, item := range items` loop of vim.State.SearchItems,
collecting the indices (starting at `i`) whose lower-cased item contains
the (already lower-cased) query. -/
def searchLoop (query : String) : Nat → List String → List Nat
  | _, [] => []
  | i, item :: rest =>
    if stringsContains (stringsToLower item) query then
      i :: searchLoop query (i + 1) rest
    else
      searchLoop query (i + 1) rest

/-- vim.State.SearchItems -/
def State.SearchItems (s : State) (items : List String) : State :=
  let results := searchLoop (stringsToLower s.searchQuery) 0 items
  let s1 := { s with searchResults := results }
  if results.length > 0 then { s1 with currentMatch := 0 } else s1

/-- `l[i]` for a Go `int` index: `none` models an index-out-of-range panic. -/
def idxGet (l : List Nat) (i : Int) : Option Int :=
  if i < 0 then none else (l.get? i.toNat).map (fun a => (a : Int))

/-- vim.State.NextMatch (new state, returned int; `none` = panic). -/
def State.NextMatch (s : State) : State × Option Int :=
  if s.searchResults.length = 0 then
    (s, some (-1))
  else
    let cm := (s.currentMatch + 1).tmod (s.searchResults.length : Int)
    ({ s with currentMatch := cm }, idxGet s.searchResults cm)

/-- vim.State.PrevMatch -/
def State.PrevMatch (s : State) : State × Option Int :=
  if s.searchResults.length = 0 then
    (s, some (-1))
  else
    let cm0 := s.currentMatch - 1
    let cm := if cm0 < 0 then (s.searchResults.length : Int) - 1 else cm0
    ({ s with currentMatch := cm }, idxGet s.searchResults cm)

/-- vim.State.GetCurrentMatch -/
def State.GetCurrentMatch (s : State) : Option Int :=
  if s.searchResults.length = 0 then some (-1)
  else idxGet s.searchResults s.currentMatch

/-- vim.NavigationAction -/
inductive NavigationAction where
  | NoAction
  | MoveUp
  | MoveDown
  | MoveTop
  | MoveBottom
  | MoveHalfPageUp
  | MoveHalfPageDown
  | MovePageUp
  | MovePageDown
  | EnterSearch
  | NextSearchResult
  | PrevSearchResult
  | EnterCommand
deriving DecidableEq, Repr

/-- vim.CalculateNewIndex (Go int arithmetic; `/` truncates toward zero). -/
def CalculateNewIndex (action : NavigationAction)
    (currentIndex listLength pageSize : Int) : Int :=
  match action with
  | .MoveUp =>
    if currentIndex > 0 then currentIndex - 1 else currentIndex
  | .MoveDown =>
    if currentIndex < listLength - 1 then currentIndex + 1 else currentIndex
  | .MoveTop => 0
  | .MoveBottom => listLength - 1
  | .MoveHalfPageUp =>
    let newIndex := currentIndex - pageSize.tdiv 2
    if newIndex < 0 then 0 else newIndex
  | .MoveHalfPageDown =>
    let newIndex := currentIndex + pageSize.tdiv 2
    if newIndex ≥ listLength then listLength - 1 else newIndex
  | .MovePageUp =>
    let newIndex := currentIndex - pageSize
    if newIndex < 0 then 0 else newIndex
  | .MovePageDown =>
    let newIndex := currentIndex + pageSize
    if newIndex ≥ listLength then listLength - 1 else newIndex
  | _ => currentIndex

/-- vim.Command -/
structure Command where
  name : String
  args : List String
deriving DecidableEq, Repr

/-- The character scan behind Go strings.Fields: `cur` is the reversed
word being accumulated. -/
def fieldsGo : List Char → List Char → List (List Char)
  | cur, [] => if cur.isEmpty then [] else [cur.reverse]
  | cur, c :: rest =>
    if c.isWhitespace then
      if cur.isEmpty then fieldsGo [] rest
      else cur.reverse :: fieldsGo [] rest
    else fieldsGo (c :: cur) rest

/-- Go strings.Fields: split on runs of whitespace, dropping empty pieces. -/
def stringsFields (s : String) : List String :=
  (fieldsGo [] s.toList).map String.mk

/-- vim.ParseCommand -/
def ParseCommand (commandStr : String) : Command :=
  match stringsFields commandStr with
  | [] => { name := "", args := [] }
  | p :: rest => { name := p, args := rest }

/-- vim.AllCommands -/
def AllCommands : List String :=
  ["q", "quit", "qa",
   "r", "refresh",
   "help", "h",
   "cf", "clearfilter",
   "sa", "selectall",
   "da", "deselectall",
   "ec2", "s3", "eks",
   "account", "acc",
   "region"]

/-- vim.GetCommandSuggestions -/
def GetCommandSuggestions (p : String) : List String :=
  if p = "" then AllCommands
  else AllCommands.filter (fun cmd => cmd.startsWith p)

/-- The inner character-by-character common-prefix scan of
vim.CompleteCommand. -/
def commonPfx : List Char → List Char → List Char
  | a :: s, b :: t => if a = b then a :: commonPfx s t else []
  | _, _ => []

/-- vim.CompleteCommand -/
def CompleteCommand (p : String) : String × Bool :=
  let suggestions := GetCommandSuggestions p
  match suggestions with
  | [c] => (c, true)
  | c :: rest =>
    let common := rest.foldl
      (fun acc s => String.mk (commonPfx acc.toList s.toList)) c
    if common.length > p.length then (common, false) else (p, false)
  | [] => (p, false)

end Vim

namespace App

open Vim

/-- main.go `type screen int` and its constants. -/
inductive screen where
  | authMethodScreen
  | authProfileScreen
  | ssoConfigScreen
  | accountScreen
  | regionScreen
  | ec2Screen
  | ec2DetailsScreen
  | s3Screen
  | s3BrowseScreen
  | s3ObjectDetailsScreen
  | eksScreen
  | eksDetailsScreen
  | helpScreen
deriving DecidableEq, Repr

export screen (authMethodScreen authProfileScreen ssoConfigScreen
  accountScreen regionScreen ec2Screen ec2DetailsScreen s3Screen
  s3BrowseScreen s3ObjectDetailsScreen eksScreen eksDetailsScreen helpScreen)

/-- aws.Instance (the fields the embedded logic reads; AZ and Tags are not
used by the modelled code paths). -/
structure Instance where
  id : String
  name : String
  state : String
  instanceType : String
  publicIP : String
  privateIP : String
deriving DecidableEq, Repr

/-- aws.Bucket (fields used by the embedded logic). -/
structure Bucket where
  name : String
  region : String
deriving DecidableEq, Repr

/-- aws.S3Object (fields used by the embedded logic). -/
structure S3Object where
  key : String
  isFolder : Bool
deriving DecidableEq, Repr

/-- aws.EKSCluster (fields used by the embedded logic). -/
structure EKSCluster where
  name : String
  version : String
  status : String
  region : String
deriving DecidableEq, Repr

/-- aws.SSOAccount -/
structure SSOAccount where
  accountID : String
  accountName : String
  emailAddress : String
  roleName : String
deriving DecidableEq, Repr

/-- aws.AuthMethod constants. -/
inductive AuthMethod where
  | AuthMethodEnv
  | AuthMethodProfile
  | AuthMethodSSO
deriving DecidableEq, Repr

/-- aws.AuthConfig (fields used by the embedded logic). -/
structure AuthConfig where
  method : AuthMethod
  ssoStartURL : String
  ssoRegion : String
deriving DecidableEq, Repr

/-- config.Config (fields used by the embedded logic). -/
structure Config where
  regions : List String
  region : String
deriving DecidableEq, Repr

/-- The asynchronous tea.Cmd values issued by the embedded Update logic,
named after the methods of `model` that build them (`quit` is tea.Quit). -/
inductive Task where
  | loadEC2Instances
  | loadS3Buckets
  | loadS3Objects (bucket : String) (pfx : String) (token : Option String)
  | loadEKSClusters
  | authenticateSSO (startURL : String) (region : String)
  | loadSSOAccounts
  | initAWSClient
  | quit
deriving DecidableEq, Repr

/-- main.go `model` — the fields read or written by the embedded Update
branches, applyVimSearch, executeVimCommand, ensureVisible,
setSelectedIndex and clearSearch.  `ec2SelectedInstances` is the Go
`map[string]bool` used as a set, modelled as a duplicate-free key list.
The Go field s3CurrentPrefix is named `s3CurrentPfx` here. -/
structure model where
  currentScreen : screen
  previousScreen : screen
  height : Int
  pageSize : Int
  viewportOffset : Int
  loading : Bool
  showingConfirm : Bool
  statusMessage : String
  filter : String
  vimState : Vim.State
  commandSuggestions : List String
  ec2Instances : List Instance
  ec2FilteredInstances : List Instance
  ec2SelectedIndex : Int
  ec2SelectedInstances : List String
  ec2InstanceDetails : Option Unit
  s3Buckets : List Bucket
  s3FilteredBuckets : List Bucket
  s3SelectedIndex : Int
  s3CurrentBucket : String
  s3CurrentPfx : String
  s3Objects : List S3Object
  s3FilteredObjects : List S3Object
  s3ObjectSelectedIndex : Int
  s3NextContinuationToken : Option String
  s3IsTruncated : Bool
  s3ObjectDetails : Option Unit
  eksClusters : List EKSCluster
  eksFilteredClusters : List EKSCluster
  eksSelectedIndex : Int
  ssoAccounts : List SSOAccount
  ssoFilteredAccounts : List SSOAccount
  ssoSelectedIndex : Int
  regionSelectedIndex : Int
  config : Option Config
  authConfig : Option AuthConfig
  ssoAuthenticator : Bool
deriving DecidableEq, Repr

/-- model.clearSearch -/
def clearSearch (m : model) : model :=
  { m with
    vimState := { m.vimState with lastSearch := "", searchResults := [] }
    ec2FilteredInstances := []
    s3FilteredBuckets := []
    s3FilteredObjects := []
    ssoFilteredAccounts := []
    eksFilteredClusters := [] }

/-- model.setSelectedIndex -/
def setSelectedIndex (m : model) (index : Int) : model :=
  match m.currentScreen with
  | regionScreen =>
    match m.config with
    | some cfg =>
      if 0 ≤ index ∧ index < (cfg.regions.length : Int) then
        { m with regionSelectedIndex := index }
      else m
    | none => m
  | accountScreen =>
    if 0 ≤ index ∧ index < (m.ssoAccounts.length : Int) then
      { m with ssoSelectedIndex := index }
    else m
  | ec2Screen =>
    if 0 ≤ index ∧ index < (m.ec2Instances.length : Int) then
      { m with ec2SelectedIndex := index }
    else m
  | s3Screen =>
    if 0 ≤ index ∧ index < (m.s3Buckets.length : Int) then
      { m with s3SelectedIndex := index }
    else m
  | s3BrowseScreen =>
    if 0 ≤ index ∧ index < (m.s3Objects.length : Int) then
      { m with s3ObjectSelectedIndex := index }
    else m
  | eksScreen =>
    if 0 ≤ index ∧ index < (m.eksClusters.length : Int) then
      { m with eksSelectedIndex := index }
    else m
  | _ => m

/-- The per-item search key built in model.applyVimSearch for accounts. -/
def accountSearchKey (acc : SSOAccount) : String :=
  stringsToLower (acc.accountID ++ " " ++ acc.accountName ++ " " ++
    acc.roleName ++ " " ++ acc.emailAddress)

/-- The per-item search key built in model.applyVimSearch for EC2. -/
def instanceSearchKey (inst : Instance) : String :=
  stringsToLower (inst.id ++ " " ++ inst.name ++ " " ++ inst.state ++ " " ++
    inst.instanceType ++ " " ++ inst.publicIP ++ " " ++ inst.privateIP)

/-- The per-item search key built in model.applyVimSearch for buckets. -/
def bucketSearchKey (b : Bucket) : String :=
  stringsToLower (b.name ++ " " ++ b.region)

/-- The per-item search key built in model.applyVimSearch for S3 objects. -/
def objectSearchKey (o : S3Object) : String :=
  stringsToLower o.key

/-- The per-item search key built in model.applyVimSearch for clusters. -/
def clusterSearchKey (c : EKSCluster) : String :=
  stringsToLower (c.name ++ " " ++ c.version ++ " " ++ c.status ++ " " ++
    c.region)

/-- The `for _, idx := range results { out = append(out, items[idx]) }`
loops of model.applyVimSearch (`get?` cannot miss: the indices come from
iterating the same list). -/
def pickIdx {α : Type} (items : List α) (idxs : List Nat) : List α :=
  idxs.filterMap (fun i => items.get? i)

/-- model.applyVimSearch -/
def applyVimSearch (m : model) : model :=
  let keys? : Option (List String) :=
    match m.currentScreen with
    | accountScreen => some (m.ssoAccounts.map accountSearchKey)
    | ec2Screen => some (m.ec2Instances.map instanceSearchKey)
    | s3Screen => some (m.s3Buckets.map bucketSearchKey)
    | s3BrowseScreen => some (m.s3Objects.map objectSearchKey)
    | eksScreen => some (m.eksClusters.map clusterSearchKey)
    | _ => none
  match keys? with
  | none => m
  | some keys =>
    let vs := m.vimState.SearchItems keys
    let m1 := { m with vimState := vs }
    if vs.searchResults.length > 0 then
      let m2 :=
        match m1.currentScreen with
        | accountScreen =>
          { m1 with ssoFilteredAccounts := pickIdx m1.ssoAccounts vs.searchResults }
        | ec2Screen =>
          { m1 with ec2FilteredInstances := pickIdx m1.ec2Instances vs.searchResults }
        | s3Screen =>
          { m1 with s3FilteredBuckets := pickIdx m1.s3Buckets vs.searchResults }
        | s3BrowseScreen =>
          { m1 with s3FilteredObjects := pickIdx m1.s3Objects vs.searchResults }
        | eksScreen =>
          { m1 with eksFilteredClusters := pickIdx m1.eksClusters vs.searchResults }
        | _ => m1
      let m3 := setSelectedIndex m2 0
      { m3 with statusMessage :=
          "Showing " ++ toString vs.searchResults.length ++
          " matching results (ESC or :cf to clear)" }
    else
      let m2 := { m1 with statusMessage := "No matches found" }
      match m2.currentScreen with
      | accountScreen => { m2 with ssoFilteredAccounts := [] }
      | ec2Screen => { m2 with ec2FilteredInstances := [] }
      | s3Screen => { m2 with s3FilteredBuckets := [] }
      | s3BrowseScreen => { m2 with s3FilteredObjects := [] }
      | eksScreen => { m2 with eksFilteredClusters := [] }
      | _ => m2

/-- model.executeVimCommand -/
def executeVimCommand (m : model) (commandStr : String) : model × Option Task :=
  let cmd := ParseCommand commandStr
  if cmd.name = "q" ∨ cmd.name = "quit" then
    if m.currentScreen = ec2DetailsScreen then
      ({ m with currentScreen := ec2Screen, ec2InstanceDetails := none }, none)
    else if m.currentScreen = s3BrowseScreen then
      ({ m with currentScreen := s3Screen, s3Objects := [],
                s3CurrentBucket := "", s3CurrentPfx := "" }, none)
    else if m.currentScreen = s3ObjectDetailsScreen then
      ({ m with currentScreen := s3BrowseScreen, s3ObjectDetails := none }, none)
    else
      (m, some .quit)
  else if cmd.name = "r" ∨ cmd.name = "refresh" then
    let m1 := { m with loading := true }
    if m1.currentScreen = ec2Screen then (m1, some .loadEC2Instances)
    else if m1.currentScreen = s3Screen then (m1, some .loadS3Buckets)
    else if m1.currentScreen = s3BrowseScreen then
      (m1, some (.loadS3Objects m1.s3CurrentBucket m1.s3CurrentPfx none))
    else (m1, none)
  else if cmd.name = "sa" then
    if m.currentScreen = ec2Screen then
      let sel := m.ec2Instances.foldl
        (fun acc inst => if inst.id ∈ acc then acc else acc ++ [inst.id])
        m.ec2SelectedInstances
      ({ m with ec2SelectedInstances := sel,
                statusMessage := "Selected all " ++
                  toString m.ec2Instances.length ++ " instances" }, none)
    else (m, none)
  else if cmd.name = "da" then
    if m.currentScreen = ec2Screen then
      ({ m with ec2SelectedInstances := [],
                statusMessage := "Cleared all selections" }, none)
    else (m, none)
  else if cmd.name = "cf" ∨ cmd.name = "clearfilter" then
    ({ m with filter := ""
              vimState := { m.vimState with lastSearch := "", searchResults := [] }
              ec2FilteredInstances := []
              s3FilteredBuckets := []
              s3FilteredObjects := []
              statusMessage := "Filter cleared" }, none)
  else if cmd.name = "help" ∨ cmd.name = "h" ∨ cmd.name = "?" then
    ({ m with previousScreen := m.currentScreen, currentScreen := helpScreen }, none)
  else if cmd.name = "ec2" then
    let m1 : model := { clearSearch m with currentScreen := ec2Screen, viewportOffset := 0 }
    if m1.ec2Instances.length = 0 then
      ({ m1 with loading := true }, some .loadEC2Instances)
    else ({ m1 with statusMessage := "Switched to EC2" }, none)
  else if cmd.name = "s3" then
    let m1 : model := { clearSearch m with currentScreen := s3Screen, viewportOffset := 0 }
    if m1.s3Buckets.length = 0 then
      ({ m1 with loading := true }, some .loadS3Buckets)
    else ({ m1 with statusMessage := "Switched to S3" }, none)
  else if cmd.name = "eks" then
    let m1 : model := { clearSearch m with currentScreen := eksScreen, viewportOffset := 0 }
    if m1.eksClusters.length = 0 then
      ({ m1 with loading := true }, some .loadEKSClusters)
    else ({ m1 with statusMessage := "Switched to EKS" }, none)
  else if cmd.name = "account" ∨ cmd.name = "acc" then
    match m.authConfig with
    | none =>
      ({ m with statusMessage :=
          "Account switching only available with SSO authentication" }, none)
    | some ac =>
      if ac.method ≠ AuthMethod.AuthMethodSSO then
        ({ m with statusMessage :=
            "Account switching only available with SSO authentication" }, none)
      else if m.ssoAuthenticator = false then
        ({ m with loading := true,
                  statusMessage :=
                    "Starting SSO authentication - opening browser..." },
         some (.authenticateSSO ac.ssoStartURL ac.ssoRegion))
      else
        let m1 : model := { m with currentScreen := accountScreen, viewportOffset := 0 }
        if m1.ssoAccounts.length = 0 then
          ({ m1 with loading := true }, some .loadSSOAccounts)
        else ({ m1 with statusMessage := "Account selection" }, none)
  else if cmd.name = "region" then
    match m.config with
    | none => ({ m with statusMessage := "No regions configured" }, none)
    | some cfg =>
      if cfg.regions.length = 0 then
        ({ m with statusMessage := "No regions configured" }, none)
      else
        let currentIndex : Int :=
          match cfg.regions.findIdx? (fun r => r = cfg.region) with
          | some i => (i : Int)
          | none => 0
        ({ m with regionSelectedIndex := currentIndex,
                  previousScreen := m.currentScreen,
                  currentScreen := regionScreen,
                  viewportOffset := 0,
                  statusMessage := "Select a region" }, none)
  else
    ({ m with statusMessage := "Unknown command: " ++ cmd.name }, none)

/-- The vim-mode branch of model.Update (the block guarded by
`m.vimState.Mode == vim.SearchMode || m.vimState.Mode == vim.CommandMode`),
for a key message. -/
def updateVimMode (m : model) (msg : String) : model × Option Task :=
  if m.vimState.mode = CommandMode ∧ msg = "tab" then
    let (completed, isComplete) := CompleteCommand m.vimState.commandBuffer
    let m1 := { m with vimState := { m.vimState with commandBuffer := completed } }
    let m2 :=
      if !isComplete then
        { m1 with commandSuggestions := GetCommandSuggestions completed }
      else
        { m1 with commandSuggestions := [] }
    (m2, none)
  else
    let (vs, handled) := m.vimState.HandleKey msg
    let m1 := { m with vimState := vs }
    if handled then
      let m2 :=
        if m1.vimState.mode = CommandMode then
          { m1 with commandSuggestions := GetCommandSuggestions m1.vimState.commandBuffer }
        else m1
      let m3 :=
        if m2.vimState.mode = SearchMode then
          if m2.vimState.searchQuery ≠ "" then
            applyVimSearch
              { m2 with vimState := { m2.vimState with lastSearch := m2.vimState.searchQuery } }
          else
            { m2 with
              vimState := { m2.vimState with lastSearch := "", searchResults := [] }
              ec2FilteredInstances := []
              s3FilteredBuckets := []
              s3FilteredObjects := [] }
        else m2
      let m4 :=
        if m3.vimState.mode = NormalMode ∧ m3.vimState.lastSearch ≠ "" then
          applyVimSearch m3
        else m3
      if m4.vimState.mode = NormalMode ∧ m4.vimState.commandBuffer ≠ "" then
        let (m5, cmd) := executeVimCommand m4 m4.vimState.commandBuffer
        ({ m5 with vimState := { m5.vimState with commandBuffer := "" },
                   commandSuggestions := [] }, cmd)
      else (m4, none)
    else (m1, none)

/-- The normal-mode key cases of model.Update that the verified claims
exercise: `/`, `n`, `N`, `:`, `tab` and `x`.  Every other key leaves the
embedded model unchanged. -/
def updateNormalKey (m : model) (msg : String) : model × Option Task :=
  if msg = "/" then
    ({ m with vimState := m.vimState.EnterSearchMode }, none)
  else if msg = "n" then
    if m.vimState.lastSearch ≠ "" then
      let (vs, ret) := m.vimState.NextMatch
      let m1 := { m with vimState := vs }
      match ret with
      | some idx => if idx ≥ 0 then (setSelectedIndex m1 idx, none) else (m1, none)
      | none => (m1, none)
    else if m.currentScreen = s3BrowseScreen ∧ m.s3IsTruncated ∧
            m.s3NextContinuationToken ≠ none then
      ({ m with loading := true },
       some (.loadS3Objects m.s3CurrentBucket m.s3CurrentPfx
               m.s3NextContinuationToken))
    else (m, none)
  else if msg = "N" then
    if m.vimState.lastSearch ≠ "" then
      let (vs, ret) := m.vimState.PrevMatch
      let m1 := { m with vimState := vs }
      match ret with
      | some idx => if idx ≥ 0 then (setSelectedIndex m1 idx, none) else (m1, none)
      | none => (m1, none)
    else (m, none)
  else if msg = ":" then
    ({ m with vimState := m.vimState.EnterCommandMode }, none)
  else if msg = "tab" then
    let m1 := clearSearch m
    if m1.currentScreen = ec2Screen then
      ({ m1 with currentScreen := s3Screen }, none)
    else if m1.currentScreen = s3Screen then
      let m2 : model := { m1 with currentScreen := eksScreen }
      if m2.eksClusters.length = 0 then
        ({ m2 with loading := true }, some .loadEKSClusters)
      else (m2, none)
    else if m1.currentScreen = eksScreen then
      ({ m1 with currentScreen := ec2Screen }, none)
    else (m1, none)
  else if msg = "x" then
    if m.currentScreen = ec2Screen then
      ({ m with ec2SelectedInstances := [],
                statusMessage := "Cleared all selections" }, none)
    else (m, none)
  else (m, none)

/-- model.Update routing for a key message once the early dialog branches
(auth screens, confirm dialogs, legacy filter) are inactive: vim
search/command mode is handled first, otherwise the normal-mode switch. -/
def update (m : model) (msg : String) : model × Option Task :=
  if m.vimState.mode = SearchMode ∨ m.vimState.mode = CommandMode then
    updateVimMode m msg
  else
    updateNormalKey m msg

/-- Fold a sequence of key messages through `update`, keeping the model. -/
def run (m : model) (msgs : List String) : model :=
  msgs.foldl (fun acc msg => (update acc msg).1) m

/-- The new viewport offset computed by model.ensureVisible, as a function
of the terminal height, the selected index, the list length and the
current offset. -/
def ensureVisibleOffset (height selectedIndex listLength offset : Int) : Int :=
  if listLength = 0 then
    0
  else
    let availableHeight0 := height - 22
    let availableHeight := if availableHeight0 < 5 then 5 else availableHeight0
    let off1 :=
      if selectedIndex < offset then selectedIndex
      else if selectedIndex ≥ offset + availableHeight then
        selectedIndex - availableHeight + 1
      else offset
    let maxOffset0 := listLength - availableHeight
    let maxOffset := if maxOffset0 < 0 then 0 else maxOffset0
    let off2 := if off1 > maxOffset then maxOffset else off1
    if off2 < 0 then 0 else off2

/-- model.ensureVisible (writes m.viewportOffset using m.height). -/
def ensureVisible (m : model) (selectedIndex listLength : Int) : model :=
  { m with viewportOffset :=
      ensureVisibleOffset m.height selectedIndex listLength m.viewportOffset }

/-- main.go bulkActionCompletedMsg. -/
structure bulkActionCompletedMsg where
  action : String
  successCount : Nat
  failureCount : Nat
deriving DecidableEq, Repr

/-- The instance loop of model.performBulkAction.  The AWS client calls
are abstracted as oracles `st`, `sp`, `rb`, `tm` mapping an instance id to
an optional error; for an unrecognized action the Go `err` stays nil. -/
def bulkLoop (st sp rb tm : String → Option String) (action : String) :
    List String → Nat → Nat → Nat × Nat
  | [], succ, fai => (succ, fai)
  | instanceID :: rest, succ, fai =>
    let err : Option String :=
      if action = "start" then st instanceID
      else if action = "stop" then sp instanceID
      else if action = "reboot" then rb instanceID
      else if action = "terminate" then tm instanceID
      else none
    match err with
    | some _ => bulkLoop st sp rb tm action rest succ (fai + 1)
    | none => bulkLoop st sp rb tm action rest (succ + 1) fai

/-- model.performBulkAction (the message its returned tea.Cmd produces). -/
def performBulkAction (st sp rb tm : String → Option String)
    (action : String) (instanceIDs : List String) : bulkActionCompletedMsg :=
  let counts := bulkLoop st sp rb tm action instanceIDs 0 0
  { action := action, successCount := counts.1, failureCount := counts.2 }

/-- The `case bulkActionCompletedMsg:` fold of model.Update. -/
def foldBulkActionCompleted (m : model) (msg : bulkActionCompletedMsg) :
    model × Option Task :=
  let m1 := { m with loading := false, showingConfirm := false }
  let m2 :=
    if msg.failureCount > 0 then
      { m1 with statusMessage :=
          "Bulk " ++ msg.action ++ ": " ++ toString msg.successCount ++
          " succeeded, " ++ toString msg.failureCount ++ " failed" }
    else
      { m1 with statusMessage :=
          "Bulk " ++ msg.action ++ ": " ++ toString msg.successCount ++
          " instances succeeded" }
  ({ m2 with ec2SelectedInstances := [] }, some .loadEC2Instances)

end App

/-!  Proof-support definitions: the operation alphabet for the vim State,
the State invariant, the recognized command verbs, and concrete sample
states used by witnesses and counterexamples. -/

/-- The exported operations of vim.State (the alphabet of claim C10). -/
inductive VimOp where
  | handleKey (msg : String)
  | enterSearchMode
  | enterCommandMode
  | searchItems (items : List String)
  | nextMatch
  | prevMatch
  | getCurrentMatch
deriving Repr

/-- One exported operation applied to a vim.State. -/
def vimStep (s : Vim.State) : VimOp → Vim.State
  | .handleKey msg => (s.HandleKey msg).1
  | .enterSearchMode => s.EnterSearchMode
  | .enterCommandMode => s.EnterCommandMode
  | .searchItems items => s.SearchItems items
  | .nextMatch => s.NextMatch.1
  | .prevMatch => s.PrevMatch.1
  | .getCurrentMatch => s

/-- Run a sequence of exported operations from vim.NewState. -/
def runVim (ops : List VimOp) : Vim.State :=
  ops.foldl vimStep Vim.NewState

/-- The bounds invariant of vim.State: `CurrentMatch` is nonnegative, and
within range whenever `SearchResults` is nonempty. -/
def VimInv (s : Vim.State) : Prop :=
  0 ≤ s.currentMatch ∧
  (s.searchResults ≠ [] → s.currentMatch < (s.searchResults.length : Int))

/-- The verbs recognized by the switch of model.executeVimCommand. -/
def knownVerbs : List String :=
  ["q", "quit", "r", "refresh", "sa", "da", "cf", "clearfilter",
   "help", "h", "?", "ec2", "s3", "eks", "account", "acc", "region"]

/-- An EC2 instance whose id is the given string and whose other fields
are empty (enough for search keys). -/
def instNamed (s : String) : App.Instance :=
  { id := s, name := "", state := "", instanceType := "",
    publicIP := "", privateIP := "" }

/-- A concrete model on the EC2 screen holding the four instances of the
spec's end-to-end search walkthrough. -/
def mEC2Sample : App.model :=
  { currentScreen := App.ec2Screen
    previousScreen := App.ec2Screen
    height := 40
    pageSize := 20
    viewportOffset := 0
    loading := false
    showingConfirm := false
    statusMessage := ""
    filter := ""
    vimState := Vim.NewState
    commandSuggestions := []
    ec2Instances := [instNamed "ec2-1", instNamed "ec2-2",
                     instNamed "s3-x", instNamed "ec2-3"]
    ec2FilteredInstances := []
    ec2SelectedIndex := 0
    ec2SelectedInstances := []
    ec2InstanceDetails := none
    s3Buckets := []
    s3FilteredBuckets := []
    s3SelectedIndex := 0
    s3CurrentBucket := ""
    s3CurrentPfx := ""
    s3Objects := []
    s3FilteredObjects := []
    s3ObjectSelectedIndex := 0
    s3NextContinuationToken := none
    s3IsTruncated := false
    s3ObjectDetails := none
    eksClusters := []
    eksFilteredClusters := []
    eksSelectedIndex := 0
    ssoAccounts := []
    ssoFilteredAccounts := []
    ssoSelectedIndex := 0
    regionSelectedIndex := 0
    config := none
    authConfig := none
    ssoAuthenticator := false }

/-- `mEC2Sample` with one instance id marked for bulk action. -/
def mSelSample : App.model :=
  { mEC2Sample with ec2SelectedInstances := ["i-1"] }

/-- A concrete bulk-completion message. -/
def bulkMsgSample : App.bulkActionCompletedMsg :=
  { action := "stop", successCount := 1, failureCount := 1 }

/-- C1 as stated is false on the code: with an empty list, MoveBottom
returns `listLength - 1 = -1`, not 0; and for a current index that is
already out of range, MoveUp stays out of range. -/
theorem c1_nav_bounds_counterexample :
    Vim.CalculateNewIndex .MoveBottom 0 0 10 = -1 ∧
    Vim.CalculateNewIndex .MoveBottom 0 0 10 ≠ 0 ∧
    Vim.CalculateNewIndex .MoveUp 5 3 10 = 4 ∧
    ¬ Vim.CalculateNewIndex .MoveUp 5 3 10 ≤ 3 - 1 := by
  decide

/-- C1 (amended): for a nonnegative page size, CalculateNewIndex maps an
in-range current index to an in-range result; when the list is empty (and
the current index is 0, its defined value for empty lists) the result is
-1 for MoveBottom, MoveHalfPageDown and MovePageDown, and 0 for every
other action. -/
theorem c1_nav_bounds_amended (action : Vim.NavigationAction)
    (currentIndex listLength pageSize : Int) (hps : 0 ≤ pageSize) :
    ((0 ≤ currentIndex ∧ currentIndex < listLength) →
      0 ≤ Vim.CalculateNewIndex action currentIndex listLength pageSize ∧
      Vim.CalculateNewIndex action currentIndex listLength pageSize ≤ listLength - 1) ∧
    ((listLength = 0 ∧ currentIndex = 0) →
      Vim.CalculateNewIndex action currentIndex listLength pageSize =
        (if action = .MoveBottom ∨ action = .MoveHalfPageDown ∨
            action = .MovePageDown then -1 else 0)) := by
  have hd : 0 ≤ pageSize.tdiv 2 := Int.tdiv_nonneg hps (by norm_num)
  cases action <;>
    constructor <;>
    intro h <;>
    simp only [Vim.CalculateNewIndex] <;>
    (try simp only [reduceCtorEq, or_self, or_false, false_or, reduceIte]) <;>
    (first
      | (split_ifs <;> omega)
      | omega)

/-- Witness for C1 (amended) at concrete inputs. -/
theorem c1_nav_bounds_witness :
    (0 ≤ Vim.CalculateNewIndex .MoveDown 1 3 2 ∧
      Vim.CalculateNewIndex .MoveDown 1 3 2 ≤ 3 - 1) ∧
    Vim.CalculateNewIndex .MoveBottom 0 0 2 =
      (if Vim.NavigationAction.MoveBottom = .MoveBottom ∨
          Vim.NavigationAction.MoveBottom = .MoveHalfPageDown ∨
          Vim.NavigationAction.MoveBottom = .MovePageDown then -1 else 0) :=
  ⟨(c1_nav_bounds_amended .MoveDown 1 3 2 (by norm_num)).1 (by norm_num),
   (c1_nav_bounds_amended .MoveBottom 0 0 2 (by norm_num)).2 ⟨rfl, rfl⟩⟩

/-- The instance loop of performBulkAction adds exactly one to one of the
two counters per instance id. -/
theorem bulkLoop_sum (st sp rb tm : String → Option String) (action : String) :
    ∀ (ids : List String) (succ fai : Nat),
      (App.bulkLoop st sp rb tm action ids succ fai).1 +
      (App.bulkLoop st sp rb tm action ids succ fai).2 =
        succ + fai + ids.length := by
  intro ids
  induction ids with
  | nil => intro succ fai; simp [App.bulkLoop]
  | cons id rest ih =>
    intro succ fai
    simp only [App.bulkLoop]
    split <;> rw [ih] <;> simp <;> omega

/-- C6: for every action name and every list of targeted instance ids (and
every behavior of the AWS client calls), the bulk-action completion
message satisfies successCount + failureCount = number of targeted ids. -/
theorem c6_bulk_counts (st sp rb tm : String → Option String)
    (action : String) (instanceIDs : List String) :
    (App.performBulkAction st sp rb tm action instanceIDs).successCount +
    (App.performBulkAction st sp rb tm action instanceIDs).failureCount =
      instanceIDs.length := by
  have h := bulkLoop_sum st sp rb tm action instanceIDs 0 0
  simpa [App.performBulkAction] using h

/-- Closed form of the viewport-offset computation: the minimal scroll,
then the clamp to [0, max(0, listLength - availableHeight)]. -/
theorem ensureVisibleOffset_closed (h s l off : Int) :
    App.ensureVisibleOffset h s l off =
      if l = 0 then 0 else
        max 0 (min (if s < off then s
                    else if s ≥ off + max 5 (h - 22) then s - max 5 (h - 22) + 1
                    else off)
                   (max 0 (l - max 5 (h - 22)))) := by
  simp only [App.ensureVisibleOffset]
  split_ifs <;> omega

/-- C7: ensureVisible is idempotent on the viewport offset, and the
resulting offset always lies in [0, max(0, listLength - visibleHeight)]
where visibleHeight is the available height computed from the terminal
height. -/
theorem c7_ensureVisible (m : App.model) (sel len : Int) :
    (App.ensureVisible (App.ensureVisible m sel len) sel len).viewportOffset =
      (App.ensureVisible m sel len).viewportOffset ∧
    0 ≤ (App.ensureVisible m sel len).viewportOffset ∧
    (App.ensureVisible m sel len).viewportOffset ≤
      max 0 (len - (if m.height - 22 < 5 then 5 else m.height - 22)) := by
  have e1 : (App.ensureVisible m sel len).viewportOffset =
      App.ensureVisibleOffset m.height sel len m.viewportOffset := rfl
  have e2 : (App.ensureVisible (App.ensureVisible m sel len) sel len).viewportOffset =
      App.ensureVisibleOffset m.height sel len
        (App.ensureVisibleOffset m.height sel len m.viewportOffset) := rfl
  rw [e1, e2]
  simp only [ensureVisibleOffset_closed]
  split_ifs <;> omega

/-- An empty pattern is contained in every string (Go strings.Contains). -/
theorem containsSubL_nil (l : List Char) : Vim.containsSubL l [] = true := by
  cases l <;> simp [Vim.containsSubL, Vim.startsWithL]

/-- Go strings.Contains with an empty substring is always true. -/
theorem stringsContains_empty (s : String) : Vim.stringsContains s "" = true := by
  simp [Vim.stringsContains, containsSubL_nil]

/-- The search loop with an empty query keeps every index. -/
theorem searchLoop_empty (items : List String) :
    ∀ i, Vim.searchLoop "" i items = List.range' i items.length := by
  induction items with
  | nil => intro i; simp [Vim.searchLoop, List.range']
  | cons item rest ih =>
    intro i
    simp [Vim.searchLoop, stringsContains_empty, ih, List.range']

/-- Every index produced by the search loop is the start index plus an
in-range offset whose item matches the query. -/
theorem searchLoop_mem (q : String) :
    ∀ (items : List String) (i j : Nat), j ∈ Vim.searchLoop q i items →
      ∃ k, k < items.length ∧ j = i + k ∧
        Vim.stringsContains (Vim.stringsToLower (items.getD k "")) q = true := by
  intro items
  induction items with
  | nil => intro i j h; simp [Vim.searchLoop] at h
  | cons item rest ih =>
    intro i j h
    simp only [Vim.searchLoop] at h
    by_cases hc : Vim.stringsContains (Vim.stringsToLower item) q = true
    · rw [if_pos hc] at h
      rcases List.mem_cons.mp h with h0 | h1
      · exact ⟨0, by simp, by omega, by simpa [h0] using hc⟩
      · obtain ⟨k, hk, hj, hm⟩ := ih (i + 1) j h1
        exact ⟨k + 1, by simpa using Nat.succ_lt_succ hk, by omega, by simpa using hm⟩
    · rw [if_neg hc] at h
      obtain ⟨k, hk, hj, hm⟩ := ih (i + 1) j h
      exact ⟨k + 1, by simpa using Nat.succ_lt_succ hk, by omega, by simpa using hm⟩

/-- Indices produced by the search loop are at least the start index. -/
theorem searchLoop_ge (q : String) (items : List String) (i j : Nat)
    (h : j ∈ Vim.searchLoop q i items) : i ≤ j := by
  obtain ⟨k, _, hj, _⟩ := searchLoop_mem q items i j h
  omega

/-- The search loop produces strictly increasing indices. -/
theorem searchLoop_pairwise (q : String) :
    ∀ (items : List String) (i : Nat),
      (Vim.searchLoop q i items).Pairwise (· < ·) := by
  intro items
  induction items with
  | nil => intro i; simp [Vim.searchLoop]
  | cons item rest ih =>
    intro i
    simp only [Vim.searchLoop]
    split
    · refine List.pairwise_cons.mpr ⟨?_, ih (i + 1)⟩
      intro j hj
      have := searchLoop_ge q rest (i + 1) j hj
      omega
    · exact ih (i + 1)

/-- Selecting every index of a list in order returns the list itself. -/
theorem pickIdx_range {α : Type} (l : List α) :
    App.pickIdx l (List.range l.length) = l := by
  induction l with
  | nil => simp [App.pickIdx]
  | cons a l ih =>
    simp only [App.pickIdx, List.length_cons, List.range_succ_eq_map,
      List.filterMap_cons, List.get?_cons_zero, List.filterMap_map]
    have hfun : (fun n => (a :: l).get? (Nat.succ n)) = fun n => l.get? n := by
      funext n
      simp
    simp only [Function.comp_def, hfun]
    simpa [App.pickIdx] using ih

/-- The search results of SearchItems are the search loop over the
lower-cased query, whichever branch is taken. -/
theorem searchItems_results (s : Vim.State) (items : List String) :
    (s.SearchItems items).searchResults =
      Vim.searchLoop (Vim.stringsToLower s.searchQuery) 0 items := by
  simp only [Vim.State.SearchItems]
  split <;> rfl

/-- C2: SearchItems is a pure function of (query, items): two states with
the same query produce the same match indices; every produced index is in
range and its case-folded item contains the case-folded query; the
indices are strictly increasing (original list order); and for the empty
query the match set is exactly every index of the list, so filtering by
it returns the original list unchanged. -/
theorem c2_search_pure (q : String) (items : List String) (s1 s2 : Vim.State)
    (hq1 : s1.searchQuery = q) (hq2 : s2.searchQuery = q) :
    ((s1.SearchItems items).searchResults = (s2.SearchItems items).searchResults) ∧
    (∀ i ∈ (s1.SearchItems items).searchResults,
      i < items.length ∧
      Vim.stringsContains (Vim.stringsToLower (items.getD i ""))
        (Vim.stringsToLower q) = true) ∧
    ((s1.SearchItems items).searchResults.Pairwise (· < ·)) ∧
    (q = "" →
      (s1.SearchItems items).searchResults = List.range items.length ∧
      App.pickIdx items (s1.SearchItems items).searchResults = items) := by
  have h1 := searchItems_results s1 items
  have h2 := searchItems_results s2 items
  rw [hq1] at h1
  rw [hq2] at h2
  refine ⟨by rw [h1, h2], ?_, ?_, ?_⟩
  · intro i hi
    rw [h1] at hi
    obtain ⟨k, hk, hik, hm⟩ := searchLoop_mem (Vim.stringsToLower q) items 0 i hi
    have : i = k := by omega
    subst this
    exact ⟨hk, hm⟩
  · rw [h1]
    exact searchLoop_pairwise (Vim.stringsToLower q) items 0
  · intro hq
    subst hq
    have hlow : Vim.stringsToLower "" = "" := rfl
    have hres : (s1.SearchItems items).searchResults = List.range items.length := by
      rw [h1, hlow, searchLoop_empty items 0, List.range_eq_range']
    exact ⟨hres, by rw [hres]; exact pickIdx_range items⟩

/-- Witness for C2 at the empty query over a concrete list. -/
theorem c2_search_pure_witness :
    App.pickIdx ["a", "b"]
      ((Vim.State.SearchItems { Vim.NewState with searchQuery := "" } ["a", "b"]).searchResults) =
      ["a", "b"] :=
  ((c2_search_pure "" ["a", "b"] { Vim.NewState with searchQuery := "" }
      { Vim.NewState with searchQuery := "" } rfl rfl).2.2.2 rfl).2

/-- Truncated mod of nonnegative operands is in [0, b). -/
theorem tmod_bounds (a b : Int) (ha : 0 ≤ a) (hb : 0 < b) :
    0 ≤ a.tmod b ∧ a.tmod b < b := by
  rw [Int.tmod_eq_emod ha (le_of_lt hb)]
  exact ⟨Int.emod_nonneg a (by omega), Int.emod_lt_of_pos a hb⟩

/-- A valid Go index into a list of indices yields an element of it. -/
theorem idxGet_mem (l : List Nat) (i : Int) (h0 : 0 ≤ i)
    (hlt : i < (l.length : Int)) :
    ∃ a ∈ l, Vim.idxGet l i = some (a : Int) := by
  have hn : i.toNat < l.length := (Int.toNat_lt h0).mpr hlt
  refine ⟨l.get ⟨i.toNat, hn⟩, List.get_mem l i.toNat hn, ?_⟩
  rw [Vim.idxGet, if_neg (by omega), List.get?_eq_get hn]
  rfl

/-- Every exported operation of vim.State preserves the bounds invariant. -/
theorem vimInv_step (s : Vim.State) (op : VimOp) (h : VimInv s) :
    VimInv (vimStep s op) := by
  obtain ⟨h0, h1⟩ := h
  cases op with
  | handleKey msg =>
    cases hm : s.mode with
    | NormalMode => simpa [vimStep, Vim.State.HandleKey, hm] using ⟨h0, h1⟩
    | SearchMode =>
      simp only [vimStep, Vim.State.HandleKey, hm, Vim.State.handleSearchMode]
      split_ifs <;> refine ⟨?_, ?_⟩ <;> simp_all
    | CommandMode =>
      simp only [vimStep, Vim.State.HandleKey, hm, Vim.State.handleCommandMode]
      split_ifs <;> exact ⟨by simpa using h0, by simpa using h1⟩
  | enterSearchMode =>
    exact ⟨by simp [vimStep, Vim.State.EnterSearchMode],
           by simp [vimStep, Vim.State.EnterSearchMode]⟩
  | enterCommandMode =>
    exact ⟨by simpa [vimStep, Vim.State.EnterCommandMode] using h0,
           by simpa [vimStep, Vim.State.EnterCommandMode] using h1⟩
  | searchItems items =>
    simp only [vimStep, Vim.State.SearchItems]
    split_ifs with hlen
    · refine ⟨by simp, ?_⟩
      intro _
      simpa using hlen
    · refine ⟨by simpa using h0, ?_⟩
      intro hne
      simp only [not_lt, Nat.le_zero, List.length_eq_zero] at hlen
      simp [hlen] at hne
  | nextMatch =>
    simp only [vimStep, Vim.State.NextMatch]
    split_ifs with hlen
    · exact ⟨h0, h1⟩
    · have hpos : 0 < (s.searchResults.length : Int) := by
        have := Nat.pos_of_ne_zero hlen
        exact_mod_cast this
      have hb := tmod_bounds (s.currentMatch + 1) (s.searchResults.length : Int)
        (by omega) hpos
      exact ⟨by simpa using hb.1, fun _ => by simpa using hb.2⟩
  | prevMatch =>
    simp only [vimStep, Vim.State.PrevMatch]
    split_ifs with hlen hneg
    · exact ⟨h0, h1⟩
    · have hpos : 0 < (s.searchResults.length : Int) := by
        have := Nat.pos_of_ne_zero hlen
        exact_mod_cast this
      exact ⟨by simp; omega, fun _ => by simp⟩
    · refine ⟨by simp; omega, fun _ => ?_⟩
      have hne : s.searchResults ≠ [] := by
        intro he
        exact hlen (by simp [he])
      have := h1 hne
      simp
      omega
  | getCurrentMatch => exact ⟨h0, h1⟩

/-- The invariant holds for every state reachable from NewState. -/
theorem vimInv_run_aux :
    ∀ (ops : List VimOp) (s : Vim.State), VimInv s →
      VimInv (ops.foldl vimStep s) := by
  intro ops
  induction ops with
  | nil => intro s h; simpa using h
  | cons op rest ih =>
    intro s h
    exact ih (vimStep s op) (vimInv_step s op h)

/-- C10: from NewState, after any sequence of exported operations the
current match position is within bounds whenever SearchResults is
nonempty; and NextMatch, PrevMatch and GetCurrentMatch return -1 exactly
when SearchResults is empty, otherwise an element of SearchResults (and
in particular never panic). -/
theorem c10_vim_safety (ops : List VimOp) :
    VimInv (runVim ops) ∧
    ((runVim ops).searchResults = [] →
      (runVim ops).NextMatch.2 = some (-1) ∧
      (runVim ops).PrevMatch.2 = some (-1) ∧
      (runVim ops).GetCurrentMatch = some (-1)) ∧
    ((runVim ops).searchResults ≠ [] →
      (∃ a ∈ (runVim ops).searchResults,
        (runVim ops).NextMatch.2 = some (a : Int)) ∧
      (∃ a ∈ (runVim ops).searchResults,
        (runVim ops).PrevMatch.2 = some (a : Int)) ∧
      (∃ a ∈ (runVim ops).searchResults,
        (runVim ops).GetCurrentMatch = some (a : Int))) := by
  have hinv : VimInv (runVim ops) := by
    have h0 : VimInv Vim.NewState := by
      constructor <;> simp [Vim.NewState, VimInv]
    exact vimInv_run_aux ops Vim.NewState h0
  set s := runVim ops with hs
  obtain ⟨h0, h1⟩ := hinv
  refine ⟨⟨h0, h1⟩, ?_, ?_⟩
  · intro he
    refine ⟨?_, ?_, ?_⟩ <;>
      simp [Vim.State.NextMatch, Vim.State.PrevMatch, Vim.State.GetCurrentMatch, he]
  · intro hne
    have hlen : s.searchResults.length ≠ 0 := by
      simpa [List.length_eq_zero] using hne
    have hcm := h1 hne
    have hpos : 0 < (s.searchResults.length : Int) := by
      have := Nat.pos_of_ne_zero hlen
      exact_mod_cast this
    refine ⟨?_, ?_, ?_⟩
    · have hb := tmod_bounds (s.currentMatch + 1) (s.searchResults.length : Int)
        (by omega) hpos
      obtain ⟨a, ha, he⟩ := idxGet_mem s.searchResults
        ((s.currentMatch + 1).tmod (s.searchResults.length : Int)) hb.1 hb.2
      refine ⟨a, ha, ?_⟩
      simp only [Vim.State.NextMatch, if_neg hlen]
      exact he
    · by_cases hneg : s.currentMatch - 1 < 0
      · obtain ⟨a, ha, he⟩ := idxGet_mem s.searchResults
          ((s.searchResults.length : Int) - 1) (by omega) (by omega)
        refine ⟨a, ha, ?_⟩
        simp only [Vim.State.PrevMatch, if_neg hlen, if_pos hneg]
        exact he
      · obtain ⟨a, ha, he⟩ := idxGet_mem s.searchResults
          (s.currentMatch - 1) (by omega) (by omega)
        refine ⟨a, ha, ?_⟩
        simp only [Vim.State.PrevMatch, if_neg hlen, if_neg hneg]
        exact he
    · obtain ⟨a, ha, he⟩ := idxGet_mem s.searchResults s.currentMatch h0 hcm
      refine ⟨a, ha, ?_⟩
      simp only [Vim.State.GetCurrentMatch, if_neg hlen]
      exact he

/-- Witness for C10 on the empty state (empty SearchResults yields -1
from all three match operations). -/
theorem c10_vim_safety_witness :
    (runVim []).NextMatch.2 = some (-1) ∧
    (runVim []).PrevMatch.2 = some (-1) ∧
    (runVim []).GetCurrentMatch = some (-1) :=
  (c10_vim_safety []).2.1 rfl

/-- SearchItems does not change the mode. -/
theorem searchItems_mode (s : Vim.State) (items : List String) :
    (s.SearchItems items).mode = s.mode := by
  simp only [Vim.State.SearchItems]
  split <;> simp

/-- SearchItems does not change the query. -/
theorem searchItems_searchQuery (s : Vim.State) (items : List String) :
    (s.SearchItems items).searchQuery = s.searchQuery := by
  simp only [Vim.State.SearchItems]
  split <;> simp

/-- SearchItems does not change the last search. -/
theorem searchItems_lastSearch (s : Vim.State) (items : List String) :
    (s.SearchItems items).lastSearch = s.lastSearch := by
  simp only [Vim.State.SearchItems]
  split <;> simp

/-- SearchItems does not change the command buffer. -/
theorem searchItems_commandBuffer (s : Vim.State) (items : List String) :
    (s.SearchItems items).commandBuffer = s.commandBuffer := by
  simp only [Vim.State.SearchItems]
  split <;> simp

/-- setSelectedIndex does not change the vim state. -/
theorem setSelectedIndex_vimState (m : App.model) (i : Int) :
    (App.setSelectedIndex m i).vimState = m.vimState := by
  unfold App.setSelectedIndex
  split <;> (try split) <;> (try split_ifs) <;> rfl

/-- setSelectedIndex does not change the current screen. -/
theorem setSelectedIndex_currentScreen (m : App.model) (i : Int) :
    (App.setSelectedIndex m i).currentScreen = m.currentScreen := by
  unfold App.setSelectedIndex
  split <;> (try split) <;> (try split_ifs) <;> rfl

/-- setSelectedIndex does not change the canonical EC2 list. -/
theorem setSelectedIndex_ec2Instances (m : App.model) (i : Int) :
    (App.setSelectedIndex m i).ec2Instances = m.ec2Instances := by
  unfold App.setSelectedIndex
  split <;> (try split) <;> (try split_ifs) <;> rfl

/-- setSelectedIndex does not change the filtered EC2 list. -/
theorem setSelectedIndex_ec2Filtered (m : App.model) (i : Int) :
    (App.setSelectedIndex m i).ec2FilteredInstances = m.ec2FilteredInstances := by
  unfold App.setSelectedIndex
  split <;> (try split) <;> (try split_ifs) <;> rfl

/-- setSelectedIndex does not change the multi-select set. -/
theorem setSelectedIndex_ec2Selected (m : App.model) (i : Int) :
    (App.setSelectedIndex m i).ec2SelectedInstances = m.ec2SelectedInstances := by
  unfold App.setSelectedIndex
  split <;> (try split) <;> (try split_ifs) <;> rfl

/-- applyVimSearch does not change the vim mode. -/
theorem applyVimSearch_mode (m : App.model) :
    (App.applyVimSearch m).vimState.mode = m.vimState.mode := by
  cases hsc : m.currentScreen <;>
    simp only [App.applyVimSearch, hsc] <;>
    (try split_ifs) <;>
    simp [setSelectedIndex_vimState, searchItems_mode, hsc]

/-- applyVimSearch does not change the query. -/
theorem applyVimSearch_searchQuery (m : App.model) :
    (App.applyVimSearch m).vimState.searchQuery = m.vimState.searchQuery := by
  cases hsc : m.currentScreen <;>
    simp only [App.applyVimSearch, hsc] <;>
    (try split_ifs) <;>
    simp [setSelectedIndex_vimState, searchItems_searchQuery, hsc]

/-- applyVimSearch does not change the last search. -/
theorem applyVimSearch_lastSearch (m : App.model) :
    (App.applyVimSearch m).vimState.lastSearch = m.vimState.lastSearch := by
  cases hsc : m.currentScreen <;>
    simp only [App.applyVimSearch, hsc] <;>
    (try split_ifs) <;>
    simp [setSelectedIndex_vimState, searchItems_lastSearch, hsc]

/-- applyVimSearch does not change the command buffer. -/
theorem applyVimSearch_commandBuffer (m : App.model) :
    (App.applyVimSearch m).vimState.commandBuffer = m.vimState.commandBuffer := by
  cases hsc : m.currentScreen <;>
    simp only [App.applyVimSearch, hsc] <;>
    (try split_ifs) <;>
    simp [setSelectedIndex_vimState, searchItems_commandBuffer, hsc]

/-- applyVimSearch does not change the current screen. -/
theorem applyVimSearch_currentScreen (m : App.model) :
    (App.applyVimSearch m).currentScreen = m.currentScreen := by
  cases hsc : m.currentScreen <;>
    simp only [App.applyVimSearch, hsc] <;>
    (try split_ifs) <;>
    simp [setSelectedIndex_currentScreen, hsc]

/-- applyVimSearch does not change the canonical EC2 list. -/
theorem applyVimSearch_ec2Instances (m : App.model) :
    (App.applyVimSearch m).ec2Instances = m.ec2Instances := by
  cases hsc : m.currentScreen <;>
    simp only [App.applyVimSearch, hsc] <;>
    (try split_ifs) <;>
    simp [setSelectedIndex_ec2Instances, hsc]

/-- applyVimSearch does not change the multi-select set. -/
theorem applyVimSearch_ec2Selected (m : App.model) :
    (App.applyVimSearch m).ec2SelectedInstances = m.ec2SelectedInstances := by
  cases hsc : m.currentScreen <;>
    simp only [App.applyVimSearch, hsc] <;>
    (try split_ifs) <;>
    simp [setSelectedIndex_ec2Selected, hsc]

/-- applyVimSearch on the EC2 screen with an empty query repopulates the
filtered list with every instance of the canonical list. -/
theorem applyVimSearch_ec2_empty (m : App.model)
    (hq : m.vimState.searchQuery = "")
    (hsc : m.currentScreen = App.ec2Screen) :
    (App.applyVimSearch m).ec2FilteredInstances = m.ec2Instances := by
  have hres : (m.vimState.SearchItems
      (m.ec2Instances.map App.instanceSearchKey)).searchResults =
      List.range m.ec2Instances.length := by
    rw [searchItems_results, hq]
    have h0 : Vim.stringsToLower "" = "" := rfl
    rw [h0, searchLoop_empty, List.length_map]
    exact (List.range_eq_range' _).symm
  simp only [App.applyVimSearch, hsc]
  rw [hres]
  by_cases hlen : 0 < m.ec2Instances.length
  · rw [if_pos (by simpa using hlen)]
    simp only [setSelectedIndex_ec2Filtered]
    exact pickIdx_range m.ec2Instances
  · rw [if_neg (by simpa using hlen)]
    have : m.ec2Instances = [] := by
      simpa [List.length_eq_zero] using hlen
    simp [this]

set_option maxHeartbeats 1600000 in
/-- What pressing Escape in Search mode actually does in model.Update
(for states whose command buffer is empty, as in every reachable search
state): back to Normal mode with an empty query, LastSearch untouched,
and — when LastSearch is nonempty — the search re-applied with the empty
query, repopulating the EC2 filtered list with all instances. -/
theorem escSearch_spec (m : App.model)
    (hmode : m.vimState.mode = Vim.SearchMode)
    (hbuf : m.vimState.commandBuffer = "") :
    (App.update m "esc").1.vimState.mode = Vim.NormalMode ∧
    (App.update m "esc").1.vimState.searchQuery = "" ∧
    (App.update m "esc").1.vimState.lastSearch = m.vimState.lastSearch ∧
    (m.vimState.lastSearch ≠ "" → m.currentScreen = App.ec2Screen →
      (App.update m "esc").1.ec2FilteredInstances = m.ec2Instances) ∧
    (m.vimState.lastSearch = "" →
      (App.update m "esc").1.ec2FilteredInstances = m.ec2FilteredInstances) := by
  have hdisp : App.update m "esc" = App.updateVimMode m "esc" := by
    simp [App.update, hmode]
  have hk : m.vimState.HandleKey "esc" =
      ({ m.vimState with searchQuery := "", searchResults := [],
                         currentMatch := 0, mode := Vim.NormalMode }, true) := by
    simp [Vim.State.HandleKey, hmode, Vim.State.handleSearchMode]
  rw [hdisp]
  unfold App.updateVimMode
  rw [hk]
  by_cases hls : m.vimState.lastSearch = ""
  · simp [hmode, hls, hbuf]
  · simp [hmode, hls, hbuf, applyVimSearch_mode, applyVimSearch_searchQuery,
      applyVimSearch_lastSearch, applyVimSearch_commandBuffer,
      applyVimSearch_currentScreen, applyVimSearch_ec2Instances]
    intro hsc
    exact applyVimSearch_ec2_empty _ (by simp) (by simpa using hsc)

/-- C3 as stated is false on the code: entering search on the EC2 sample,
typing "a" and pressing Escape leaves LastSearch = "a" (not empty), and
the filtered list is repopulated with the whole instance list rather than
cleared. -/
theorem c3_escape_counterexample :
    (App.run mEC2Sample ["/", "a", "esc"]).vimState.lastSearch = "a" ∧
    ¬ (App.run mEC2Sample ["/", "a", "esc"]).vimState.lastSearch = "" ∧
    (App.run mEC2Sample ["/", "a", "esc"]).ec2FilteredInstances =
      mEC2Sample.ec2Instances ∧
    mEC2Sample.ec2Instances ≠ [] := by
  decide

/-- C3 (amended): for every state in Search mode (with the empty command
buffer every reachable search state has), Escape clears the query and
returns to Normal mode, but LastSearch is left exactly as it was just
before the keypress; when that LastSearch is nonempty the search is
immediately re-applied with the now-empty query, so on the EC2 screen the
filtered list is repopulated with all instances (showing the unfiltered
data) instead of being cleared. -/
theorem c3_escape_amended (m : App.model)
    (hmode : m.vimState.mode = Vim.SearchMode)
    (hbuf : m.vimState.commandBuffer = "") :
    (App.update m "esc").1.vimState.searchQuery = "" ∧
    (App.update m "esc").1.vimState.mode = Vim.NormalMode ∧
    (App.update m "esc").1.vimState.lastSearch = m.vimState.lastSearch ∧
    (m.vimState.lastSearch ≠ "" → m.currentScreen = App.ec2Screen →
      (App.update m "esc").1.ec2FilteredInstances = m.ec2Instances) := by
  have h := escSearch_spec m hmode hbuf
  exact ⟨h.2.1, h.1, h.2.2.1, h.2.2.2.1⟩

/-- Witness for C3 (amended) on a concrete reachable search state. -/
theorem c3_escape_amended_witness :
    (App.update (App.run mEC2Sample ["/"]) "esc").1.vimState.searchQuery = "" :=
  (c3_escape_amended (App.run mEC2Sample ["/"]) (by decide) (by decide)).1

/-- C4 as stated is false on the code: enter search, commit "x" (so
lastAppliedQuery = "x" before re-entering), re-enter search, type "a",
press Escape — LastSearch is now "a", not the "x" it held before Search
mode was entered (live typing commits the query to LastSearch). -/
theorem c4_mode_transitions_counterexample :
    (App.run mEC2Sample ["/", "x", "enter"]).vimState.lastSearch = "x" ∧
    (App.run mEC2Sample ["/", "x", "enter", "/", "a", "esc"]).vimState.mode =
      Vim.NormalMode ∧
    (App.run mEC2Sample ["/", "x", "enter", "/", "a", "esc"]).vimState.lastSearch
      = "a" ∧
    ("a" : String) ≠ "x" := by
  decide

/-- C4 (amended): from Normal mode, `/` always yields Search mode with an
empty query; from Search mode (with an empty command buffer), Escape
always yields Normal mode and leaves LastSearch exactly as it was
immediately before the Escape keypress — but since every character typed
in Search mode live-commits the query into LastSearch, that value need
not equal the one from before Search mode was entered. -/
theorem c4_mode_transitions_amended (m : App.model)
    (hbuf : m.vimState.commandBuffer = "") :
    (m.vimState.mode = Vim.NormalMode →
      (App.update m "/").1.vimState.mode = Vim.SearchMode ∧
      (App.update m "/").1.vimState.searchQuery = "") ∧
    (m.vimState.mode = Vim.SearchMode →
      (App.update m "esc").1.vimState.mode = Vim.NormalMode ∧
      (App.update m "esc").1.vimState.lastSearch = m.vimState.lastSearch) := by
  constructor
  · intro hmode
    constructor <;>
      simp [App.update, hmode, App.updateNormalKey, Vim.State.EnterSearchMode]
  · intro hmode
    have h := escSearch_spec m hmode hbuf
    exact ⟨h.1, h.2.2.1⟩

/-- Witness for C4 (amended) on a concrete normal-mode state. -/
theorem c4_mode_transitions_witness :
    (App.update mEC2Sample "/").1.vimState.mode = Vim.SearchMode ∧
    (App.update mEC2Sample "/").1.vimState.searchQuery = "" :=
  (c4_mode_transitions_amended mEC2Sample rfl).1 rfl

/-- C5: evaluation of the end-to-end search walkthrough.  The match
indices are [0,1,3] and the selection starts at filtered index 0, as the
spec says; but after two next-match presses the selection index is 3 (the
original-list position of "ec2-3"), not 2 (its position in the 3-element
filtered view the screen displays), so no row of the filtered view is
selected; a third press wraps back to 0. -/
theorem c5_next_match_walkthrough :
    (App.run mEC2Sample ["/", "e", "c", "2", "enter"]).vimState.searchResults
      = [0, 1, 3] ∧
    (App.run mEC2Sample ["/", "e", "c", "2", "enter"]).ec2SelectedIndex = 0 ∧
    (App.run mEC2Sample ["/", "e", "c", "2", "enter"]).ec2FilteredInstances.length
      = 3 ∧
    (App.run mEC2Sample ["/", "e", "c", "2", "enter"]).ec2FilteredInstances.get? 2
      = some (instNamed "ec2-3") ∧
    (App.run mEC2Sample ["/", "e", "c", "2", "enter", "n", "n"]).ec2SelectedIndex
      = 3 ∧
    (App.run mEC2Sample ["/", "e", "c", "2", "enter", "n", "n"]).ec2SelectedIndex
      ≠ 2 ∧
    (App.run mEC2Sample ["/", "e", "c", "2", "enter", "n", "n", "n"]).ec2SelectedIndex
      = 0 := by
  decide

/-- C8: executing a command line whose verb is not recognized leaves the
model unchanged except for the status message, which names the unknown
verb, and issues no task. -/
theorem c8_unknown_command (m : App.model) (line : String)
    (h : (Vim.ParseCommand line).name ∉ knownVerbs) :
    App.executeVimCommand m line =
      ({ m with statusMessage :=
          "Unknown command: " ++ (Vim.ParseCommand line).name }, none) := by
  simp only [knownVerbs, List.mem_cons, List.not_mem_nil, or_false,
    not_or] at h
  obtain ⟨h1, h2, h3, h4, h5, h6, h7, h8, h9, h10, h11, h12, h13, h14,
    h15, h16, h17⟩ := h
  simp [App.executeVimCommand, h1, h2, h3, h4, h5, h6, h7, h8, h9, h10,
    h11, h12, h13, h14, h15, h16, h17]

/-- Witness for C8 on a concrete unknown verb. -/
theorem c8_unknown_command_witness :
    App.executeVimCommand mEC2Sample "frobnicate arg" =
      ({ mEC2Sample with statusMessage := "Unknown command: frobnicate" },
       none) := by
  have h := c8_unknown_command mEC2Sample "frobnicate arg" (by decide)
  exact h.trans (by decide)

/-- C9 as stated is false on the code: a screen change (tab from the EC2
screen to the S3 screen) leaves the multi-select set untouched. -/
theorem c9_selection_lifecycle_counterexample :
    (App.run mSelSample ["tab"]).currentScreen = App.s3Screen ∧
    App.s3Screen ≠ mSelSample.currentScreen ∧
    (App.run mSelSample ["tab"]).ec2SelectedInstances = ["i-1"] ∧
    (["i-1"] : List String) ≠ [] := by
  decide

/-- C9 (amended): the multi-select set is cleared on explicit
deselect-all (the `x` key and the `:da` command, on the EC2 screen) and
after every bulk-action completion event, success or failure; but it is
NOT cleared on screen change — tab away from the EC2 screen keeps it. -/
theorem c9_selection_lifecycle_amended (m : App.model)
    (msg : App.bulkActionCompletedMsg)
    (hscreen : m.currentScreen = App.ec2Screen) :
    (App.updateNormalKey m "x").1.ec2SelectedInstances = [] ∧
    (App.executeVimCommand m "da").1.ec2SelectedInstances = [] ∧
    (App.foldBulkActionCompleted m msg).1.ec2SelectedInstances = [] ∧
    (App.updateNormalKey m "tab").1.ec2SelectedInstances =
      m.ec2SelectedInstances ∧
    (App.updateNormalKey m "tab").1.currentScreen = App.s3Screen := by
  refine ⟨?_, ?_, ?_, ?_, ?_⟩
  · simp [App.updateNormalKey, hscreen]
  · have hp : Vim.ParseCommand "da" = { name := "da", args := [] } := by
      decide
    simp [App.executeVimCommand, hp, hscreen]
  · simp [App.foldBulkActionCompleted]
  · simp [App.updateNormalKey, hscreen, App.clearSearch]
  · simp [App.updateNormalKey, hscreen, App.clearSearch]

/-- Witness for C9 (amended) on a concrete model with one selected id. -/
theorem c9_selection_lifecycle_witness :
    (App.foldBulkActionCompleted mSelSample bulkMsgSample).1.ec2SelectedInstances
      = [] :=
  (c9_selection_lifecycle_amended mSelSample bulkMsgSample rfl).2.2.1
